import Mathlib

/-!
Shallow embedding of the z-stream continuous broadcaster core, translated
from the Rust sources (`src/media_info.rs`, `src/media_type.rs`,
`src/random_files.rs`, `src/api.rs`, `src/finder.rs`,
`src/stream/encoder.rs`, `src/stream/input_bin.rs`,
`src/stream/input_pipeline.rs`), together with theorems settling the
specification claims about that code.

Machine conventions: file paths are strings, GStreamer `ClockTime` is a
natural number of nanoseconds, the random number generator is an explicit
input (a natural-number tape value), and Rust panics are modelled as
`Option.none` / `Except.error` results.
-/

namespace ZStream

/-- File paths, identity is pathwise (spec section 3). -/
abbrev Path := String

/-! ## Media data model (`src/media_info.rs`, `src/media_type.rs`) -/

/-- Image codec detected from the caps structure name
(`media_info.rs`, `enum ImageCodec`). -/
inductive ImageCodec
  | Jpeg
  | Png
  | Unknown
deriving DecidableEq, Repr

/-- Metadata of an image stream (`media_info.rs`, `struct ImageInfo`).
The ppi fields are `Option<f64>` in Rust; they are carried opaquely here
and never inspected by the functions under verification. -/
structure ImageInfo where
  codec : ImageCodec
  horizontal_ppi : Option Float
  vertical_ppi : Option Float

/-- Default `ImageInfo` (all fields from `Default`). -/
def ImageInfo.default : ImageInfo :=
  { codec := ImageCodec.Unknown, horizontal_ppi := none, vertical_ppi := none }

/-- Metadata of an audio or video stream (`media_info.rs`, `struct StreamInfo`). -/
structure StreamInfo where
  max_bitrate : Option Nat
  bitrate : Option Nat
deriving DecidableEq, Repr

/-- Default `StreamInfo` (all fields `None`). -/
def StreamInfo.default : StreamInfo := { max_bitrate := none, bitrate := none }

/-- GStreamer `ClockTime`: nanoseconds. -/
abbrev ClockTime := Nat

/-- One second in `ClockTime` nanoseconds (`gstreamer::ClockTime::SECOND`). -/
def clockSecond : ClockTime := 1000000000

/-- Probe result for one file (`media_info.rs`, `struct MediaInfo`). -/
structure MediaInfo where
  duration : Option ClockTime
  image : Option ImageInfo
  video : Option StreamInfo
  audio : Option StreamInfo

/-- Default `MediaInfo`: `MediaInfo::default()`, every field `None`. -/
def MediaInfo.default : MediaInfo :=
  { duration := none, image := none, video := none, audio := none }

/-- Translation of `MediaInfo::is_empty`: no image, no video and no audio
stream was discovered. -/
def MediaInfo.is_empty (m : MediaInfo) : Bool :=
  m.image.isNone && m.video.isNone && m.audio.isNone

/-- Translation of `MediaInfo::play_duration`: the reported duration, or
five seconds when the container reported none. -/
def MediaInfo.play_duration (m : MediaInfo) : ClockTime :=
  m.duration.getD (5 * clockSecond)

/-- The media classification enum (`media_type.rs`, `enum MediaType`).
Note that the Rust enum has exactly these four variants; it has no
`AudioOnly` variant. -/
inductive MediaType
  | VideoWithAudio
  | VideoWithoutAudio
  | Image
  | Unknown
deriving DecidableEq, Repr

/-- Translation of `MediaInfo::media_type` (`media_info.rs` lines 67-79):

```rust
if self.video.is_some() {
    if self.audio.is_some() { MediaType::VideoWithAudio }
    else { MediaType::VideoWithoutAudio }
} else if self.image.is_none() {
    MediaType::Image
} else {
    MediaType::Unknown
}
``` -/
def MediaInfo.media_type (m : MediaInfo) : MediaType :=
  if m.video.isSome then
    if m.audio.isSome then MediaType.VideoWithAudio
    else MediaType.VideoWithoutAudio
  else if m.image.isNone then MediaType.Image
  else MediaType.Unknown

/-- Modelled from the spec: the five-variant `MediaKind` of spec section 3
({Image, VideoNoAudio, VideoWithAudio, AudioOnly, Unknown}). The source
enum `MediaType` has no `AudioOnly` variant; this type exists to state the
spec's derivation rules for comparison. -/
inductive SpecMediaKind
  | Image
  | VideoNoAudio
  | VideoWithAudio
  | AudioOnly
  | Unknown
deriving DecidableEq, Repr

/-- Modelled from the spec: the spec's derivation rules for `MediaKind`
(spec section 3): video & audio → VideoWithAudio; video → VideoNoAudio;
audio & !video → AudioOnly; image & !video & !audio → Image; otherwise
Unknown. -/
def specMediaKind (m : MediaInfo) : SpecMediaKind :=
  if m.video.isSome && m.audio.isSome then SpecMediaKind.VideoWithAudio
  else if m.video.isSome then SpecMediaKind.VideoNoAudio
  else if m.audio.isSome then SpecMediaKind.AudioOnly
  else if m.image.isSome then SpecMediaKind.Image
  else SpecMediaKind.Unknown

/-- The evident injection of the source's four `MediaType` variants into the
spec's five `MediaKind` variants. -/
def embedKind : MediaType → SpecMediaKind
  | MediaType.VideoWithAudio => SpecMediaKind.VideoWithAudio
  | MediaType.VideoWithoutAudio => SpecMediaKind.VideoNoAudio
  | MediaType.Image => SpecMediaKind.Image
  | MediaType.Unknown => SpecMediaKind.Unknown

/-- What `MediaInfo::media_type` actually computes, written as the case
rules of the amended claim: with video present the spec rules hold, but
without video the code tests `image.is_none()` and returns `Image` exactly
when the image field is empty (so audio-only and fully-empty probes map to
`Image`, and image-only probes map to `Unknown`). -/
def amendedMediaKind (m : MediaInfo) : MediaType :=
  if m.video.isSome && m.audio.isSome then MediaType.VideoWithAudio
  else if m.video.isSome then MediaType.VideoWithoutAudio
  else if m.image.isNone then MediaType.Image
  else MediaType.Unknown

/-- A `MediaInfo` for a file with a single audio stream and nothing else. -/
def audioOnlyInfo : MediaInfo :=
  { duration := some (3 * clockSecond), image := none, video := none,
    audio := some StreamInfo.default }

/-- A `MediaInfo` for a still image with no video and no audio stream. -/
def imageOnlyInfo : MediaInfo :=
  { duration := none, image := some ImageInfo.default, video := none,
    audio := none }

/-! ## HTTP control endpoint (`src/api.rs`) -/

/-- HTTP request methods as distinguished by `tiny_http::Method`; the
handler only compares against `Get`. -/
inductive HttpMethod
  | Get
  | Head
  | Post
  | Put
  | Delete
  | Options
  | Patch
deriving DecidableEq, Repr

/-- An HTTP response as produced by `tiny_http::Response::empty(200)`. -/
structure HttpResponse where
  status : Nat
  body : String
deriving DecidableEq, Repr

/-- Translation of `handle_request` (`api.rs`): sends `Command::Skip` on the
command channel exactly when the request is `GET /skip`, then responds 200
with an empty body. The returned boolean records whether Skip was sent. -/
def handle_request (method : HttpMethod) (url : String) : HttpResponse × Bool :=
  let sendsSkip := method = HttpMethod.Get ∧ url = "/skip"
  ({ status := 200, body := "" }, decide sendsSkip)

/-! ## Random file producer (`src/random_files.rs`)

The `rand` crate's `random_range` over an empty range panics; a panic is
modelled as `Option.none`. The generator itself is an explicit input: a
natural number `v`, reduced modulo the size of the requested range. -/

/-- Model of `rand::Rng::random_range(lo..hi)` driven by the tape value `v`:
a uniform draw from `[lo, hi)`, panicking (`none`) when the range is empty. -/
def randRange (lo hi v : Nat) : Option Nat :=
  if lo < hi then some (lo + v % (hi - lo)) else none

/-- Translation of `RandomFiles::ensure_files` (`random_files.rs` lines
38-49): when cycling is disabled or the catalog is non-empty it does
nothing; otherwise it starts the walker and blocks on one notification,
after which the catalog holds whatever the walk has pushed so far. The
walker's contribution is the explicit parameter `walked` (possibly empty:
the notification fires when the first root's worker finishes, whether or
not it found any file). -/
def ensure_files (cycle : Bool) (files walked : List Path) : List Path :=
  if !cycle || !files.isEmpty then files else files ++ walked

/-- Translation of `<RandomFiles as Iterator>::next` (`random_files.rs`
lines 107-118): after `ensure_files`, draw an index uniformly from
`[0, files.len())` and swap the drawn entry out of the catalog
(`files.remove(index)`). On an empty catalog the draw is over an empty
range and panics (`none`). -/
def randomFilesNext (cycle : Bool) (files walked : List Path) (v : Nat) :
    Option (Path × List Path) :=
  let fs := ensure_files cycle files walked
  match randRange 0 fs.length v with
  | none => none
  | some index => some (fs.getD index "", fs.eraseIdx index)

/-- The indices of the catalog entries satisfying the predicate, in order;
translation of
`files.iter().enumerate().filter_map(|(index, path)| if if_fn(path) { Some(index) } else { None })`
(`random_files.rs`), written over `List.range`. -/
def filteredIndices (files : List Path) (p : Path → Bool) : List Nat :=
  (List.range files.length).filter (fun i => p (files.getD i ""))

/-- Translation of `RandomFiles::next_if` (`random_files.rs` lines 82-104)
for one draw inside an epoch (`ensure_files` finds the catalog non-empty
or contributes nothing, so it is the identity and is omitted): collect the
indices of entries satisfying `if_fn`; if none, return `None`; otherwise
draw one of them uniformly and remove the selected entry from the catalog,
returning it together with the updated catalog. -/
def next_if (files : List Path) (p : Path → Bool) (v : Nat) :
    Option (Path × List Path) :=
  let filtered := filteredIndices files p
  if filtered.isEmpty then none
  else
    match randRange 0 filtered.length v with
    | none => none
    | some n =>
      let index := filtered.getD n 0
      some (files.getD index "", files.eraseIdx index)

/-- The sequence of paths emitted by repeated `next_if` calls within one
epoch, driven by the tape `vs`; a draw that finds no eligible entry emits
nothing and leaves the catalog unchanged (the finder loops and retries). -/
def nextIfTrace (p : Path → Bool) : List Path → List Nat → List Path
  | _, [] => []
  | files, v :: vs =>
    match next_if files p v with
    | none => nextIfTrace p files vs
    | some (path, rest) => path :: nextIfTrace p rest vs

/-- Translation of the removal loop of `RandomFiles::multi_if`
(`random_files.rs` lines 73-77): remove the entries at the given indices
from the catalog one after the other (`Vec::remove` shifts later elements
down and panics when the index is out of bounds, modelled as `none`). -/
def removeLoop : List Path → List Nat → Option (List Path × List Path)
  | files, [] => some ([], files)
  | files, i :: rest =>
    if h : i < files.length then
      match removeLoop (files.eraseIdx i) rest with
      | some (items, remaining) => some (files.get ⟨i, h⟩ :: items, remaining)
      | none => none
    else none

/-- Translation of `RandomFiles::multi_if` (`random_files.rs` lines 51-80):
collect the indices of entries satisfying `if_fn`; if none, return the
empty vector; otherwise shuffle them (the shuffle is the explicit
permutation parameter `σ`), draw `n` uniformly from `1..filtered.len()`
(a panic — `none` — when that range is empty) and remove the first `n`
shuffled indices from the catalog. Returns the removed items and the
updated catalog. -/
def multi_if (files : List Path) (p : Path → Bool) (σ : List Nat → List Nat)
    (v : Nat) : Option (List Path × List Path) :=
  let filtered := filteredIndices files p
  if filtered.isEmpty then some ([], files)
  else
    let shuffled := σ filtered
    match randRange 1 shuffled.length v with
    | none => none
    | some n => removeLoop files (shuffled.take n)

/-! ## Media probe (`src/media_info.rs`, `detect_media` and callers) -/

/-- Outcome reported by `gstreamer_pbutils::Discoverer` for one URI
(`DiscovererResult`). -/
inductive DiscovererResult
  | Ok
  | UriInvalid
  | Error
  | Timeout
  | Busy
  | MissingPlugins
deriving DecidableEq, Repr

/-- One entry of the discovered stream topology, characterised by its
`stream_type_nick()` and the metadata extracted from its tags. The nested
next-chain / container recursion of `add_topology` visits entries one at a
time, so the topology is taken here already flattened into visit order. -/
inductive StreamEntry
  | container
  | videoImage (info : ImageInfo)
  | video (info : StreamInfo)
  | audio (info : StreamInfo)
  | other
deriving Inhabited

/-- Translation of `add_stream_info` (`media_info.rs`): containers and
unhandled stream types are skipped; the first entry of each bucket wins
(a duplicate in the same file is logged and ignored). -/
def add_stream_info (m : MediaInfo) : StreamEntry → MediaInfo
  | StreamEntry.container => m
  | StreamEntry.videoImage info =>
    if m.image.isSome then m else { m with image := some info }
  | StreamEntry.video info =>
    if m.video.isSome then m else { m with video := some info }
  | StreamEntry.audio info =>
    if m.audio.isSome then m else { m with audio := some info }
  | StreamEntry.other => m

/-- Everything the asynchronous discovery run reports back to
`detect_media`: the result code, the container duration and the stream
topology. -/
structure DiscoveryOutcome where
  result : DiscovererResult
  duration : Option ClockTime
  streams : List StreamEntry

/-- Setup failures of `detect_media` that do return `Err`: URI construction
(`glib::filename_to_uri`), discoverer construction (`Discoverer::new`) and
`discover_uri_async`. -/
inductive SetupError
  | FilenameToUri
  | DiscovererNew
  | DiscoverUriAsync
deriving DecidableEq, Repr

/-- Translation of `detect_media` (`media_info.rs` lines 199-253). When one
of the setup steps fails, the function returns `Err`. Otherwise the
discovered callback runs: for any result other than `DiscovererResult::Ok`
it only logs and returns, leaving the `MediaInfo` at its default, and
`detect_media` returns `Ok(MediaInfo::default())`; on `Ok` it stores the
reported duration and folds the topology through `add_stream_info`. -/
def detect_media (setup : Option SetupError) (outcome : DiscoveryOutcome) :
    Except SetupError MediaInfo :=
  match setup with
  | some e => Except.error e
  | none =>
    if outcome.result = DiscovererResult.Ok then
      Except.ok (outcome.streams.foldl add_stream_info
        { MediaInfo.default with duration := outcome.duration })
    else
      Except.ok MediaInfo.default

/-- Translation of the eligibility predicate the finder passes to
`next_if` (`finder.rs` lines 24-46), applied to the probe result of a
not-yet-seen path: a file is kept only when probing succeeded and found at
least one stream (`!media_info.is_empty()`); a probe `Err` rejects it. -/
def finderEligible (probe : Except SetupError MediaInfo) : Bool :=
  match probe with
  | Except.ok m => !m.is_empty
  | Except.error _ => false

/-! ## Output H.264 encoder (`src/stream/encoder.rs`) -/

/-- The properties `create_video_encoder_inner` may set on the encoder
element; `none` means the property was left untouched (either the factory
does not expose it or the branch did not run). String-valued properties are
kept as strings, numeric ones as naturals. -/
structure EncoderProps where
  preset : Option String
  rcMode : Option String
  zerolatency : Option Bool
  rateControl : Option String
  profile : Option String
  tune : Option String
  aud : Option Bool
  bitrate : Option Nat
  keyIntMax : Option Nat
  bframes : Option Nat
  cabac : Option Bool
deriving DecidableEq, Repr

/-- Translation of `create_video_encoder_inner` (`encoder.rs` lines 20-66)
for a factory whose element was built successfully. `supports` models
`Element::has_property` for that factory. -/
def create_video_encoder_inner (factory : String) (supports : String → Bool) :
    EncoderProps :=
  { preset := if factory = "nvh264enc" then some "low-latency-hq" else none,
    rcMode := if factory = "nvh264enc" then some "cbr" else none,
    zerolatency := if factory = "nvh264enc" then some true else none,
    rateControl := if factory = "vah264enc" then some "cbr" else none,
    profile := if factory = "x264enc" then some "high" else none,
    tune :=
      if supports "tune" && factory ≠ "nvh264enc" then some "zerolatency"
      else none,
    aud := if supports "aud" then some true else none,
    bitrate := if supports "bitrate" then some 6000 else none,
    keyIntMax := if supports "key-int-max" then some 60 else none,
    bframes := if supports "bframes" then some 2 else none,
    cabac := if supports "cabac" then some true else none }

/-- Translation of `create_video_encoder` (`encoder.rs` lines 6-18):
try `nvh264enc`, then `vah264enc`, then fall back to `x264enc`. `avail`
models whether `ElementFactory::make` succeeds for a factory; the chosen
factory name is returned with its configured properties, and `none` models
the final `x264enc` attempt failing too. -/
def create_video_encoder (avail : String → Bool)
    (supports : String → String → Bool) : Option (String × EncoderProps) :=
  if avail "nvh264enc" then
    some ("nvh264enc", create_video_encoder_inner "nvh264enc" (supports "nvh264enc"))
  else if avail "vah264enc" then
    some ("vah264enc", create_video_encoder_inner "vah264enc" (supports "vah264enc"))
  else if avail "x264enc" then
    some ("x264enc", create_video_encoder_inner "x264enc" (supports "x264enc"))
  else none

/-! ## Input assembly image hold (`src/stream/input_bin.rs`) -/

/-- Translation of the duration fixup in the `uri_decode` pad-added closure
(`input_bin.rs` lines 183-191): the queried decodebin duration, `ZERO` when
the query fails (`unwrap_or(ClockTime::ZERO)`). -/
def queriedDuration (query : Option ClockTime) : ClockTime :=
  query.getD 0

/-- Translation of `fixed_duration` (`input_bin.rs` lines 187-191): a zero
stream duration is replaced by the five-second image hold; a nonzero
reported duration is kept. -/
def fixedDuration (streamDuration : ClockTime) : ClockTime :=
  if streamDuration = 0 then 5 * clockSecond else streamDuration

/-- Translation of `is_image` (`input_bin.rs` line 214): the decoded video
pad is routed through `imagefreeze` exactly when the queried duration is
zero. -/
def isImagePad (streamDuration : ClockTime) : Bool :=
  streamDuration = 0

/-- What the buffer probe on the `imagefreeze` src pad does for one buffer
(`input_bin.rs` lines 148-166). -/
inductive ProbeAction
  | removeEosBoth
  | ok
deriving DecidableEq, Repr

/-- Translation of the `imagefreeze` src-pad buffer probe (`input_bin.rs`
lines 148-166): when a hold duration has been stored and the buffer carries
a PTS strictly greater than it, push synthetic EOS onto the src pads of
both `video_convert` and `audio_convert` and remove the probe; otherwise
pass the buffer through. -/
def imageFreezeProbe (duration : Option ClockTime) (pts : Option ClockTime) :
    ProbeAction :=
  match duration, pts with
  | some d, some t => if t > d then ProbeAction.removeEosBoth else ProbeAction.ok
  | _, _ => ProbeAction.ok

/-! ## Switcher core (`src/stream/input_pipeline.rs`)

The pipeline state is reduced to what the claims are about: per slot the
`pre_rolled` flag, the bound URI and the GStreamer element state, plus the
active index, the selector pads and the remaining file iterator. Selector
pause/resume around the pad swap and the flush events have no observable
effect in this state and are noted in the doc comments of the operations
that perform them. -/

/-- GStreamer element states used by the switcher. -/
inductive GstState
  | Null
  | Paused
  | Playing
deriving DecidableEq, Repr

/-- One `InputBinItem` (`input_pipeline.rs` lines 78-83), keeping the
observable parts: the pre-roll flag, the URI the bin is bound to and the
bin's element state. -/
structure BinItem where
  preRolled : Bool
  uri : Path
  binState : GstState
deriving DecidableEq, Repr

/-- The switcher state: the slots, the active slot index, the selector
active-pad settings (stored as the index of the slot whose pad is active)
and the remaining files of the producer iterator. -/
structure PipeState where
  bins : List BinItem
  active : Nat
  videoActivePad : Nat
  audioActivePad : Nat
  files : List Path
deriving DecidableEq, Repr

/-- Translation of `InputPipeline::switch_bin_uri` (`input_pipeline.rs`
lines 211-229): clear the slot's pre-roll flag, set its bin to `Null`,
flush it, bind the next path from the file iterator (`expect` panics —
`none` — when the iterator is exhausted) and set the bin to `Paused` so it
pre-rolls again. -/
def switch_bin_uri (s : PipeState) (index : Nat) : Option PipeState :=
  match s.files with
  | [] => none
  | path :: rest =>
    some { s with
      bins := s.bins.set index
        { preRolled := false, uri := path, binState := GstState.Paused },
      files := rest }

/-- Translation of `InputPipeline::set_active` (`input_pipeline.rs` lines
231-251): assert the index is in range (`none` models the assert firing),
record the new active slot, pause both selectors, point their active pads
at the slot's pads, set the slot's bin to `Playing` if it is pre-rolled,
and resume the selectors. -/
def set_active (s : PipeState) (index : Nat) : Option PipeState :=
  if h : index < s.bins.length then
    let s := { s with
      active := index, videoActivePad := index, audioActivePad := index }
    let item := s.bins.get ⟨index, h⟩
    if item.preRolled then
      some { s with
        bins := s.bins.set index { item with binState := GstState.Playing } }
    else some s
  else none

/-- The index-selection loop of `InputPipeline::switch_next`
(`input_pipeline.rs` lines 254-273), with explicit fuel (the Rust loop
walks each candidate once, so `bins.length + 1` iterations always
suffice): starting from `next`, wrap at the end of the slot list; stop at
the active index (falling back to `active + 1` when that is still a valid
index, else to the active index itself); otherwise stop at the first slot
whose `pre_rolled` flag is set. -/
def switchNextLoop (bins : List Bool) (active : Nat) : Nat → Nat → Nat
  | _, 0 => active
  | next, fuel + 1 =>
    let next := if next = bins.length then 0 else next
    if next = active then
      if next + 1 < bins.length then next + 1 else next
    else if bins.getD next false then next
    else switchNextLoop bins active (next + 1) fuel

/-- The slot index chosen by `InputPipeline::switch_next` given the
per-slot `pre_rolled` flags and the active index. -/
def switchNextIndex (bins : List Bool) (active : Nat) : Nat :=
  switchNextLoop bins active (active + 1) (bins.length + 1)

/-- Translation of `InputPipeline::switch_next` (`input_pipeline.rs` lines
253-277): select the next slot index and make it active. -/
def switch_next (s : PipeState) : Option PipeState :=
  set_active s (switchNextIndex (s.bins.map (fun b => b.preRolled)) s.active)

/-- Translation of the `Command::Skip` arm of `InputPipeline::play`
(`input_pipeline.rs` lines 339-343): remember the active index, switch to
the next slot, then recycle the slot that was active. -/
def handleSkip (s : PipeState) : Option PipeState :=
  let binIndex := s.active
  (switch_next s).bind (fun s2 => switch_bin_uri s2 binIndex)

/-- Translation of the `Eos` arm of `InputPipeline::handle_message`
(`input_pipeline.rs` lines 287-290): when the message originates from the
active slot, switch to the next slot and recycle the message's slot; EOS
from any other source is ignored. -/
def handleEos (s : PipeState) (binIndex : Option Nat) : Option PipeState :=
  match binIndex with
  | some i =>
    if i = s.active then
      (switch_next s).bind (fun s2 => switch_bin_uri s2 i)
    else some s
  | none => some s

/-- Translation of the `Error` arm of `InputPipeline::handle_message`
(`input_pipeline.rs` lines 302-310): when the erroring element belongs to a
slot, switch to the next slot first if that slot is the active one, then
recycle the slot; errors from outside the slots are only logged. -/
def handleError (s : PipeState) (binIndex : Option Nat) : Option PipeState :=
  match binIndex with
  | some i =>
    (if i = s.active then switch_next s else some s).bind
      (fun s2 => switch_bin_uri s2 i)
  | none => some s

/-- The sibling slot indices in the cyclic visiting order of the
`switch_next` loop: `active + 1` up to the last slot, then wrapping to
`0` up to `active - 1`. -/
def cyclicSiblings (len active : Nat) : List Nat :=
  List.range' (active + 1) (len - active - 1) ++ List.range active

/-- Modelled from the spec: the spec's next-slot rule ("prefer the first
sibling in Slot.PreRolled state; else the active slot itself if none are
ready"): the first pre-rolled sibling in cyclic order, with the active
index itself as the fallback. -/
def specSwitchNextIndex (bins : List Bool) (active : Nat) : Nat :=
  ((cyclicSiblings bins.length active).find?
      (fun i => bins.getD i false)).getD active

/-- What the `switch_next` loop actually selects: the first pre-rolled
sibling in cyclic order, and when no sibling is pre-rolled the slot
`active + 1` if that index exists, else the active slot itself. -/
def amendedSwitchNextIndex (bins : List Bool) (active : Nat) : Nat :=
  ((cyclicSiblings bins.length active).find?
      (fun i => bins.getD i false)).getD
    (if active + 1 < bins.length then active + 1 else active)

/-- A concrete two-slot switcher state: slot 0 active and playing, slot 1
pre-rolled, two paths left in the producer iterator. -/
def samplePipeState : PipeState :=
  { bins := [{ preRolled := false, uri := "a.mp4", binState := GstState.Playing },
             { preRolled := true, uri := "b.mp3", binState := GstState.Paused }],
    active := 0, videoActivePad := 0, audioActivePad := 0,
    files := ["c.jpg", "d.mp4"] }

/-! ## Claim C1: derivation of the media kind -/

/-- C1 counterexample: `MediaInfo::media_type` does not follow the spec's
`MediaKind` rules. A file with a single audio stream (audio present, no
video) classifies as `Image`, not as the spec's `AudioOnly` (the source
enum has no such variant), and a still image with no video and no audio
classifies as `Unknown`, not `Image`: the code's no-video branch returns
`Image` when `image.is_none()` holds, inverting the spec's image rule. -/
theorem c1_media_kind_counterexample :
    embedKind (MediaInfo.media_type audioOnlyInfo) ≠ specMediaKind audioOnlyInfo ∧
    embedKind (MediaInfo.media_type imageOnlyInfo) ≠ specMediaKind imageOnlyInfo := by
  constructor <;> decide

/-- C1 (amended): the derived `MediaType` obeys: video & audio →
VideoWithAudio; video & no audio → VideoWithoutAudio; otherwise `Image`
exactly when the image field is empty and `Unknown` when it is set — so
audio-only and streamless probes map to `Image` and image-only probes to
`Unknown`, and no `AudioOnly` classification exists. -/
theorem c1_media_kind_amended (m : MediaInfo) :
    m.media_type = amendedMediaKind m := by
  obtain ⟨d, i, vdo, aud⟩ := m
  cases vdo <;> cases aud <;> cases i <;> rfl

/-! ## Claim C9: HTTP control endpoint -/

/-- C9: every request to the control endpoint is answered 200 with an empty
body, and a Skip command is enqueued if and only if the request is `GET`
with URL exactly `/skip`. -/
theorem c9_http_skip (method : HttpMethod) (url : String) :
    (handle_request method url).1 = { status := 200, body := "" } ∧
    ((handle_request method url).2 = true ↔
      method = HttpMethod.Get ∧ url = "/skip") := by
  refine ⟨rfl, ?_⟩
  simp [handle_request]

/-- C9 witness: `GET /skip` enqueues Skip, `POST /skip` does not, and both
get a 200 empty response. -/
theorem c9_http_skip_witness :
    (handle_request HttpMethod.Get "/skip").2 = true ∧
    (handle_request HttpMethod.Post "/skip").2 = false ∧
    (handle_request HttpMethod.Post "/skip").1 = { status := 200, body := "" } := by
  refine ⟨(c9_http_skip HttpMethod.Get "/skip").2.mpr ⟨rfl, rfl⟩, ?_, (c9_http_skip HttpMethod.Post "/skip").1⟩
  have h := (c9_http_skip HttpMethod.Post "/skip").2
  simp at h
  simp [h]

/-! ## Claim C4: image hold duration -/

/-- C4: for a still whose queried duration is absent or zero, the pad-added
closure routes the stream through `imagefreeze`, stores a hold of exactly
the five-second default, and the freeze-output buffer probe fires the
synthetic EOS on both ports precisely when a buffer's PTS exceeds that
hold. -/
theorem c4_image_hold (q : Option ClockTime)
    (h : q = none ∨ q = some 0) :
    isImagePad (queriedDuration q) = true ∧
    fixedDuration (queriedDuration q) = 5 * clockSecond ∧
    (∀ pts : ClockTime,
      imageFreezeProbe (some (fixedDuration (queriedDuration q))) (some pts) =
        if 5 * clockSecond < pts then ProbeAction.removeEosBoth
        else ProbeAction.ok) := by
  have hq : queriedDuration q = 0 := by
    rcases h with h | h <;> simp [h, queriedDuration]
  rw [hq]
  refine ⟨rfl, rfl, ?_⟩
  intro pts
  simp [fixedDuration, imageFreezeProbe]

/-- C4 witness: with a zero duration tag the hold is five seconds and a
buffer one nanosecond past the hold triggers the synthetic EOS. -/
theorem c4_image_hold_witness :
    fixedDuration (queriedDuration (some 0)) = 5 * clockSecond ∧
    imageFreezeProbe (some (fixedDuration (queriedDuration (some 0))))
      (some (5 * clockSecond + 1)) = ProbeAction.removeEosBoth := by
  have h := c4_image_hold (some 0) (Or.inr rfl)
  refine ⟨h.2.1, ?_⟩
  rw [h.2.2 (5 * clockSecond + 1), if_pos (Nat.lt_succ_self _)]

/-! ## Claim C7: probe failure handling -/

/-- C7 counterexample: a probe run whose discovery ends in `Timeout` does
not return a `ProbeError`; `detect_media` returns `Ok` with the default
(empty) `MediaInfo`, even though the file had a discoverable video
stream. -/
theorem c7_probe_counterexample :
    detect_media none
      { result := DiscovererResult.Timeout, duration := some (7 * clockSecond),
        streams := [StreamEntry.video StreamInfo.default] } =
      Except.ok MediaInfo.default := by
  rfl

/-- C7 (amended): for every discovery run ending in plugin-missing, invalid
URI, busy, timeout or a generic error, `detect_media` returns `Ok` with an
empty `MediaInfo` rather than an error, and the finder's eligibility
predicate rejects that empty `MediaInfo`, so the caller skips the file. -/
theorem c7_probe_failure_amended (r : DiscovererResult)
    (d : Option ClockTime) (ss : List StreamEntry)
    (h : r ≠ DiscovererResult.Ok) :
    detect_media none { result := r, duration := d, streams := ss } =
      Except.ok MediaInfo.default ∧
    finderEligible (detect_media none { result := r, duration := d, streams := ss }) = false := by
  have hd : detect_media none { result := r, duration := d, streams := ss } =
      Except.ok MediaInfo.default := by
    simp [detect_media, h]
  refine ⟨hd, ?_⟩
  rw [hd]
  rfl

/-- C7 witness: the amended statement at a concrete timed-out probe of a
file carrying one audio stream. -/
theorem c7_probe_failure_witness :
    detect_media none
      { result := DiscovererResult.Busy, duration := none,
        streams := [StreamEntry.audio StreamInfo.default] } =
      Except.ok MediaInfo.default ∧
    finderEligible (detect_media none
      { result := DiscovererResult.Busy, duration := none,
        streams := [StreamEntry.audio StreamInfo.default] }) = false :=
  c7_probe_failure_amended DiscovererResult.Busy none
    [StreamEntry.audio StreamInfo.default] (by decide)

/-! ## Claim C8: encoder GOP and B-frame configuration -/

/-- C8 counterexample: with only the software fallback available and all
properties supported, the selected `x264enc` encoder is configured with
`key-int-max` 60 — a GOP of up to 60 frames, not at most 30 — and with
`bframes` 2, so B-frames are enabled, not disabled. -/
theorem c8_encoder_counterexample :
    (create_video_encoder (fun f => f = "x264enc") (fun _ _ => true)).map
        (fun fp => fp.2.keyIntMax) = some (some 60) ∧
    (create_video_encoder (fun f => f = "x264enc") (fun _ _ => true)).map
        (fun fp => fp.2.bframes) = some (some 2) := by
  constructor <;> rfl

/-- C8 (amended): whichever factory the fallback chain selects, the encoder
is configured with `key-int-max` 60 (GOP length at most 60 frames) and
with 2 B-frames, in each case whenever the selected factory exposes the
property, and those two properties are set to no other value. -/
theorem c8_encoder_amended (avail : String → Bool)
    (supports : String → String → Bool) (f : String) (props : EncoderProps)
    (h : create_video_encoder avail supports = some (f, props)) :
    props.keyIntMax = (if supports f "key-int-max" then some 60 else none) ∧
    props.bframes = (if supports f "bframes" then some 2 else none) := by
  unfold create_video_encoder at h
  split at h
  · obtain ⟨hf, hp⟩ := Prod.mk.injEq .. ▸ Option.some.injEq .. ▸ h
    subst hf; subst hp
    exact ⟨rfl, rfl⟩
  · split at h
    · obtain ⟨hf, hp⟩ := Prod.mk.injEq .. ▸ Option.some.injEq .. ▸ h
      subst hf; subst hp
      exact ⟨rfl, rfl⟩
    · split at h
      · obtain ⟨hf, hp⟩ := Prod.mk.injEq .. ▸ Option.some.injEq .. ▸ h
        subst hf; subst hp
        exact ⟨rfl, rfl⟩
      · exact absurd h (by simp)

/-- C8 witness: the amended statement at the concrete software-fallback
selection with every property supported. -/
theorem c8_encoder_amended_witness :
    (create_video_encoder_inner "x264enc" (fun _ => true)).keyIntMax =
      (if (fun (_ _ : String) => true) "x264enc" "key-int-max" then some 60 else none) ∧
    (create_video_encoder_inner "x264enc" (fun _ => true)).bframes =
      (if (fun (_ _ : String) => true) "x264enc" "bframes" then some 2 else none) :=
  c8_encoder_amended (fun f => f = "x264enc") (fun _ _ => true) "x264enc"
    (create_video_encoder_inner "x264enc" (fun _ => true)) rfl

/-! ## Claim C2: producer next on an empty catalog -/

/-- C2 counterexample: `next()` on an empty catalog crashes instead of
blocking. With cycling enabled and a walker pass that finds no file, and
likewise with cycling disabled, the uniform draw over the empty range
`0..0` panics (`none`); the call returns abnormally rather than blocking
until the catalog is non-empty. -/
theorem c2_next_counterexample :
    randomFilesNext true [] [] 0 = none ∧
    randomFilesNext false [] [] 0 = none := by
  constructor <;> rfl

/-- C2 (amended): `next()` always terminates. `ensure_files` blocks at most
until the first walker pass completes; if the catalog is still empty at
the draw, `next()` panics on the empty uniform range instead of blocking,
and if the catalog is non-empty, `next()` returns a member of the catalog
without consulting playability. -/
theorem c2_next_amended (cycle : Bool) (files walked : List Path) (v : Nat) :
    (ensure_files cycle files walked = [] →
      randomFilesNext cycle files walked v = none) ∧
    (ensure_files cycle files walked ≠ [] →
      randomFilesNext cycle files walked v =
        some ((ensure_files cycle files walked).getD
                (v % (ensure_files cycle files walked).length) "",
              (ensure_files cycle files walked).eraseIdx
                (v % (ensure_files cycle files walked).length)) ∧
      (ensure_files cycle files walked).getD
          (v % (ensure_files cycle files walked).length) "" ∈
        ensure_files cycle files walked) := by
  constructor
  · intro h
    simp [randomFilesNext, h, randRange]
  · intro h
    have hlen : 0 < (ensure_files cycle files walked).length :=
      List.length_pos.mpr h
    have hmod : v % (ensure_files cycle files walked).length <
        (ensure_files cycle files walked).length := Nat.mod_lt _ hlen
    constructor
    · simp only [randomFilesNext, randRange, if_pos hlen, Nat.sub_zero,
        Nat.zero_add]
    · rw [List.getD_eq_getElem _ _ hmod]
      exact List.getElem_mem hmod

/-- C2 witness: with cycling disabled and an empty catalog, `ensure_files`
leaves the catalog empty and `next()` panics. -/
theorem c2_next_amended_witness :
    randomFilesNext false [] [] 3 = none :=
  (c2_next_amended false [] [] 3).1 rfl

/-! ## Claim C6: skip, EOS and error share the item-boundary path -/

/-- C6: handling a Skip command, a natural EOS from the active slot and a
bus error attributed to the active slot all perform the identical state
transition — switch-next followed by recycling (rebinding) the slot that
was active. -/
theorem c6_skip_eos_error_equiv (s : PipeState) (j : Nat) (h : j = s.active) :
    handleSkip s = handleEos s (some j) ∧
    handleSkip s = handleError s (some j) ∧
    handleSkip s = (switch_next s).bind (fun s2 => switch_bin_uri s2 s.active) := by
  subst h
  refine ⟨?_, ?_, rfl⟩
  · simp [handleSkip, handleEos]
  · simp [handleSkip, handleError]

/-- C6 witness: on the concrete two-slot state the three transitions agree. -/
theorem c6_skip_eos_error_equiv_witness :
    handleSkip samplePipeState = handleEos samplePipeState (some 0) ∧
    handleSkip samplePipeState = handleError samplePipeState (some 0) :=
  ⟨(c6_skip_eos_error_equiv samplePipeState 0 rfl).1,
   (c6_skip_eos_error_equiv samplePipeState 0 rfl).2.1⟩

/-! ## Helper lemmas about the filtered-index selection -/

/-- The number of selected indices equals the number of catalog entries
satisfying the predicate. -/
theorem filteredIndices_length (files : List Path) (p : Path → Bool) :
    (filteredIndices files p).length = files.countP p := by
  induction files using List.reverseRecOn with
  | nil => rfl
  | append_singleton l a ih =>
    simp only [filteredIndices, List.length_append, List.length_cons,
      List.length_nil]
    rw [List.range_succ, List.filter_append, List.length_append]
    have h1 : (List.range l.length).filter
        (fun i => p ((l ++ [a]).getD i "")) =
        (List.range l.length).filter (fun i => p (l.getD i "")) := by
      apply List.filter_congr
      intro i hi
      have hil : i < l.length := List.mem_range.mp hi
      have hil2 : i < (l ++ [a]).length := by simp; omega
      rw [List.getD_eq_getElem _ _ hil2, List.getD_eq_getElem _ _ hil,
        List.getElem_append_left hil]
    have h2 : ((l ++ [a]).getD l.length "") = a := by
      have hl : l.length < (l ++ [a]).length := by simp
      rw [List.getD_eq_getElem _ _ hl]
      simp
    rw [h1, List.countP_append]
    simp only [filteredIndices] at ih
    rw [ih]
    simp [h2, List.countP_cons]
    by_cases hpa : p a = true <;> simp [hpa]

/-- Every selected index is a valid catalog index. -/
theorem filteredIndices_mem_lt (files : List Path) (p : Path → Bool)
    (i : Nat) (h : i ∈ filteredIndices files p) : i < files.length := by
  simp only [filteredIndices, List.mem_filter, List.mem_range] at h
  exact h.1

/-- Shape of a successful `next_if` draw: the returned path sits at a valid
catalog index and the returned catalog is the original with that index
erased. -/
theorem next_if_some (files : List Path) (p : Path → Bool) (v : Nat)
    (path : Path) (rest : List Path)
    (h : next_if files p v = some (path, rest)) :
    ∃ index, index < files.length ∧ path = files.getD index "" ∧
      rest = files.eraseIdx index := by
  unfold next_if at h
  by_cases he : (filteredIndices files p).isEmpty
  · rw [if_pos he] at h
    exact absurd h (by simp)
  · rw [if_neg he] at h
    have hlen : 0 < (filteredIndices files p).length := by
      cases hf : filteredIndices files p with
      | nil => rw [hf] at he; simp at he
      | cons a t => simp
    rw [show randRange 0 (filteredIndices files p).length v =
        some (v % (filteredIndices files p).length) from by
      simp [randRange, hlen]] at h
    have hmlt : v % (filteredIndices files p).length <
        (filteredIndices files p).length := Nat.mod_lt _ hlen
    have hmem : (filteredIndices files p).getD
        (v % (filteredIndices files p).length) 0 ∈ filteredIndices files p := by
      rw [List.getD_eq_getElem _ _ hmlt]
      exact List.getElem_mem hmlt
    have hidx : (filteredIndices files p).getD
        (v % (filteredIndices files p).length) 0 < files.length :=
      filteredIndices_mem_lt files p _ hmem
    obtain ⟨h1, h2⟩ := Prod.mk.injEq .. ▸ Option.some.injEq .. ▸ h
    exact ⟨_, hidx, h1.symm, h2.symm⟩

/-- In a duplicate-free list the element at an index does not survive the
erasure of that index. -/
theorem getElem_not_mem_eraseIdx (l : List Path) (i : Nat) (h : i < l.length)
    (hn : l.Nodup) : l[i] ∉ l.eraseIdx i := by
  rw [List.eraseIdx_eq_take_drop_succ]
  have hsplit : l.take i ++ l[i] :: l.drop (i + 1) = l := by
    have hd := List.take_append_drop i l
    rw [List.drop_eq_getElem_cons h] at hd
    exact hd
  have hn2 : (l.take i ++ l[i] :: l.drop (i + 1)).Nodup := by
    rw [hsplit]; exact hn
  rw [List.nodup_middle] at hn2
  exact (List.nodup_cons.mp hn2).1

/-- Along a whole trace of `next_if` draws from a duplicate-free catalog,
the emitted paths are pairwise distinct and all come from the catalog. -/
theorem nextIfTrace_nodup (p : Path → Bool) (vs : List Nat) :
    ∀ files : List Path, files.Nodup →
      (nextIfTrace p files vs).Nodup ∧
      ∀ x ∈ nextIfTrace p files vs, x ∈ files := by
  induction vs with
  | nil =>
    intro files _
    exact ⟨List.nodup_nil, by intro x hx; simp [nextIfTrace] at hx⟩
  | cons v vs ih =>
    intro files h
    unfold nextIfTrace
    cases hnf : next_if files p v with
    | none => exact ih files h
    | some pr =>
      obtain ⟨path, rest⟩ := pr
      obtain ⟨index, hidx, hpath, hrest⟩ := next_if_some files p v path rest hnf
      have hsub : List.Sublist rest files :=
        hrest ▸ List.eraseIdx_sublist files index
      have hrn : rest.Nodup := h.sublist hsub
      obtain ⟨ih1, ih2⟩ := ih rest hrn
      have hpm : path ∉ rest := by
        rw [hpath, List.getD_eq_getElem _ _ hidx, hrest]
        exact getElem_not_mem_eraseIdx files index hidx h
      constructor
      · rw [List.nodup_cons]
        exact ⟨fun hmem => hpm (ih2 path hmem), ih1⟩
      · intro x hx
        rcases List.mem_cons.mp hx with h1 | h2
        · rw [h1, hpath, List.getD_eq_getElem _ _ hidx]
          exact List.getElem_mem hidx
        · exact hsub.subset (ih2 x h2)

/-! ## Claim C3: no repeats within an epoch -/

/-- C3: within one epoch (no walker refill), every successful `next_if`
selection returns a path of the catalog and removes it from the returned
catalog, and along any sequence of draws from a duplicate-free catalog no
path is emitted twice. -/
theorem c3_no_repeat_in_epoch (files : List Path) (p : Path → Bool)
    (vs : List Nat) (h : files.Nodup) :
    (nextIfTrace p files vs).Nodup ∧
    (∀ v path rest, next_if files p v = some (path, rest) →
      path ∈ files ∧ path ∉ rest) := by
  refine ⟨(nextIfTrace_nodup p vs files h).1, ?_⟩
  intro v path rest hnf
  obtain ⟨index, hidx, hpath, hrest⟩ := next_if_some files p v path rest hnf
  constructor
  · rw [hpath, List.getD_eq_getElem _ _ hidx]
    exact List.getElem_mem hidx
  · rw [hpath, List.getD_eq_getElem _ _ hidx, hrest]
    exact getElem_not_mem_eraseIdx files index hidx h

/-- C3 witness: a concrete three-file epoch emits pairwise distinct
paths. -/
theorem c3_no_repeat_in_epoch_witness :
    (nextIfTrace (fun _ => true) ["a.mp4", "b.mp3", "c.jpg"] [0, 1, 0]).Nodup :=
  (c3_no_repeat_in_epoch ["a.mp4", "b.mp3", "c.jpg"] (fun _ => true) [0, 1, 0]
    (by decide)).1

/-! ## Claim C10: multi_if panics on a single match -/

/-- C10: when exactly one catalog file satisfies the predicate, the draw
`random_range(1..filtered.len())` is over the empty range `1..1` and
`multi_if` panics instead of returning that file; and a non-empty result
is possible only when at least two files match. -/
theorem c10_multi_if_single_match (files : List Path) (p : Path → Bool)
    (σ : List Nat → List Nat) (hσ : ∀ l, (σ l).length = l.length) (v : Nat) :
    (files.countP p = 1 → multi_if files p σ v = none) ∧
    (∀ items rest, multi_if files p σ v = some (items, rest) → items ≠ [] →
      2 ≤ files.countP p) := by
  have hfl : (filteredIndices files p).length = files.countP p :=
    filteredIndices_length files p
  have key : files.countP p = 1 → multi_if files p σ v = none := by
    intro h1
    have hlen : (filteredIndices files p).length = 1 := by rw [hfl, h1]
    have hne : (filteredIndices files p).isEmpty = false := by
      have hq : filteredIndices files p ≠ [] := by
        intro hq
        rw [hq] at hlen
        simp at hlen
      simp [List.isEmpty_iff, hq]
    have hsl : (σ (filteredIndices files p)).length = 1 := by
      rw [hσ, hlen]
    simp only [multi_if, hne, Bool.false_eq_true, if_false, hsl, randRange]
    norm_num
  refine ⟨key, ?_⟩
  intro items rest hm hne
  by_contra hlt
  push_neg at hlt
  have hc : files.countP p = 0 ∨ files.countP p = 1 := by omega
  rcases hc with h0 | h1
  · have hemp : (filteredIndices files p).isEmpty = true := by
      rw [List.isEmpty_iff, ← List.length_eq_zero, hfl, h0]
    simp only [multi_if, hemp, if_true] at hm
    obtain ⟨hi, _⟩ := Prod.mk.injEq .. ▸ Option.some.injEq .. ▸ hm
    exact hne hi.symm
  · rw [key h1] at hm
    exact Option.noConfusion hm

/-- C10 witness: with the one-file catalog whose single entry matches, the
call panics. -/
theorem c10_multi_if_single_match_witness :
    multi_if ["a.mp4"] (fun _ => true) id 0 = none :=
  (c10_multi_if_single_match ["a.mp4"] (fun _ => true) id (fun _ => rfl) 0).1
    (by decide)

/-! ## Helper lemmas for the switch-next loop -/

/-- One unfolding of the `switch_next` loop away from the wrap point. -/
theorem switchNextLoop_step (bins : List Bool) (active next fuel : Nat)
    (hne : next ≠ bins.length) :
    switchNextLoop bins active next (fuel + 1) =
      if next = active then
        (if next + 1 < bins.length then next + 1 else next)
      else if bins.getD next false then next
      else switchNextLoop bins active (next + 1) fuel := by
  conv_lhs => rw [switchNextLoop]
  rw [if_neg hne]

/-- At the wrap point the loop body behaves as a fresh iteration at index
zero. -/
theorem switchNextLoop_wrap (bins : List Bool) (active fuel : Nat)
    (h : 0 < bins.length) :
    switchNextLoop bins active bins.length (fuel + 1) =
      switchNextLoop bins active 0 (fuel + 1) := by
  conv_lhs => rw [switchNextLoop]
  conv_rhs => rw [switchNextLoop]
  rw [if_pos rfl, if_neg (by omega : ¬ (0 : Nat) = bins.length)]

/-- Characterisation of the loop on the lower segment (at or below the
active index, after the wrap): it finds the first pre-rolled slot among
the remaining candidates before `active`, with the `active + 1` fallback. -/
theorem switchNextLoop_lower (bins : List Bool) (active : Nat)
    (h : active < bins.length) :
    ∀ fuel next, next ≤ active → active - next < fuel →
      switchNextLoop bins active next fuel =
        ((List.range' next (active - next)).find?
            (fun i => bins.getD i false)).getD
          (if active + 1 < bins.length then active + 1 else active) := by
  intro fuel
  induction fuel with
  | zero => intro next _ hf; exact absurd hf (Nat.not_lt_zero _)
  | succ fuel ih =>
    intro next hna hf
    rw [switchNextLoop_step bins active next fuel (by omega)]
    by_cases hact : next = active
    · subst hact
      rw [if_pos rfl, Nat.sub_self]
      simp [List.range']
    · rw [if_neg hact]
      have hsplit : active - next = (active - (next + 1)) + 1 := by omega
      rw [hsplit, List.range'_succ]
      by_cases hp : bins.getD next false
      · rw [if_pos hp,
          List.find?_cons_of_pos (p := fun i => bins.getD i false) _ hp,
          Option.getD_some]
      · rw [if_neg hp,
          List.find?_cons_of_neg (p := fun i => bins.getD i false) _
            (by simpa using hp)]
        exact ih (next + 1) (by omega) (by omega)

/-- Characterisation of the loop on the upper segment (above the active
index, before the wrap): it scans the remaining upper candidates and then
the whole lower segment. -/
theorem switchNextLoop_upper (bins : List Bool) (active : Nat)
    (h : active < bins.length) :
    ∀ fuel next, active < next → next ≤ bins.length →
      (bins.length - next) + active < fuel →
      switchNextLoop bins active next fuel =
        (((List.range' next (bins.length - next)) ++
            List.range active).find? (fun i => bins.getD i false)).getD
          (if active + 1 < bins.length then active + 1 else active) := by
  intro fuel
  induction fuel with
  | zero => intro next _ _ hf; exact absurd hf (Nat.not_lt_zero _)
  | succ fuel ih =>
    intro next han hnl hf
    by_cases hend : next = bins.length
    · subst hend
      rw [switchNextLoop_wrap bins active fuel (by omega)]
      rw [switchNextLoop_lower bins active h (fuel + 1) 0 (by omega) (by omega)]
      simp only [Nat.sub_self, List.range', List.nil_append,
        Nat.sub_zero, List.range_eq_range']
    · rw [switchNextLoop_step bins active next fuel hend]
      have hact : ¬ next = active := by omega
      rw [if_neg hact]
      have hsplit : bins.length - next = (bins.length - (next + 1)) + 1 := by
        omega
      rw [hsplit, List.range'_succ, List.cons_append]
      by_cases hp : bins.getD next false
      · rw [if_pos hp,
          List.find?_cons_of_pos (p := fun i => bins.getD i false) _ hp,
          Option.getD_some]
      · rw [if_neg hp,
          List.find?_cons_of_neg (p := fun i => bins.getD i false) _
            (by simpa using hp)]
        exact ih (next + 1) (by omega) (by omega) (by omega)

/-! ## Claim C5: next-slot selection -/

/-- C5 counterexample: with two slots, slot 0 active and no slot
pre-rolled, the code selects slot 1 while the spec's rule ("else the
active slot itself if none are ready") selects slot 0. -/
theorem c5_switch_next_counterexample :
    switchNextIndex [false, false] 0 = 1 ∧
    specSwitchNextIndex [false, false] 0 = 0 := by
  constructor <;> rfl

/-- C5 (amended): the chosen next slot is the first sibling slot in
pre-rolled state, scanning cyclically from `active + 1`; when no sibling
is pre-rolled the choice falls back to slot `active + 1` whenever that
index exists, and only for the last slot to the active slot itself. -/
theorem c5_switch_next_amended (bins : List Bool) (active : Nat)
    (h : active < bins.length) :
    switchNextIndex bins active = amendedSwitchNextIndex bins active := by
  unfold switchNextIndex amendedSwitchNextIndex cyclicSiblings
  rw [switchNextLoop_upper bins active h (bins.length + 1) (active + 1)
    (by omega) (by omega) (by omega)]
  have hs : bins.length - (active + 1) = bins.length - active - 1 := by omega
  rw [hs]

/-- C5 witness: the amended characterisation at a concrete three-slot
state with only slot 1 pre-rolled, and at one with none pre-rolled. -/
theorem c5_switch_next_amended_witness :
    switchNextIndex [false, true, false] 0 =
      amendedSwitchNextIndex [false, true, false] 0 ∧
    switchNextIndex [false, false, false] 1 =
      amendedSwitchNextIndex [false, false, false] 1 :=
  ⟨c5_switch_next_amended [false, true, false] 0 (by decide),
   c5_switch_next_amended [false, false, false] 1 (by decide)⟩

end ZStream
